import Mathlib

/-!
Verification of the homeddns DynDNS bridge.

Shallow embedding of the core of the repository:
* the DynDNS protocol handler (`internal/handler/dyndns.go`),
* the Netcup session-managed provider client (`provider_netcup_ccp.go`),
* the AWS Route53 zone-directory provider client
  (`internal/provider/provider_aws_route53.go`).

Go strings are modelled as `List Char` (one `Char` per byte/rune; the
inputs of interest are ASCII).  External Go standard-library helpers the
code calls (`net.ParseIP`, `net.SplitHostPort`, `url.PathUnescape`,
`strings.*`) are modelled as executable Lean functions with the stdlib's
documented semantics; `net.ParseIP` additionally appears as an abstract
parameter in generic theorems so that the claims about the handler's
*structure* do not depend on parser internals.
-/

set_option linter.unusedVariables false

deriving instance DecidableEq for Except

/-- Go strings, modelled as lists of characters. -/
abbrev GoStr := List Char

namespace GoModel

/-- Model of Go `strings.ToLower` (ASCII-relevant part). -/
def toLowerStr (s : GoStr) : GoStr := s.map Char.toLower

/-- Model of Go `strings.Split(s, string(sep))` for a one-character
separator: splits at every occurrence, keeping empty fields.  On any
input it returns at least one field. -/
def splitChar (sep : Char) : GoStr → List GoStr
  | [] => [[]]
  | c :: rest =>
    if c = sep then [] :: splitChar sep rest
    else
      match splitChar sep rest with
      | [] => [[c]]
      | p :: ps => (c :: p) :: ps

/-- Model of Go `strings.Join(parts, string(sep))`. -/
def joinChar (sep : Char) : List GoStr → GoStr
  | [] => []
  | [p] => p
  | p :: ps => p ++ sep :: joinChar sep ps

/-- Model of Go `strings.HasSuffix`. -/
def hasSuffixB (s suf : GoStr) : Bool := decide (suf <:+ s)

/-- Model of Go `strings.HasPrefix`. -/
def hasPrefixB (s pre : GoStr) : Bool := decide (pre <+: s)

/-- Model of Go `strings.TrimSuffix`: removes one trailing occurrence
of `suf` when present, otherwise returns the string unchanged. -/
def trimSuffix (s suf : GoStr) : GoStr :=
  if hasSuffixB s suf then s.take (s.length - suf.length) else s

/-- Model of Go `strings.TrimPrefix`. -/
def trimPrefixStr (s pre : GoStr) : GoStr :=
  if hasPrefixB s pre then s.drop pre.length else s

/-- Model of Go `strings.TrimSpace` (ASCII whitespace). -/
def trimSpace (s : GoStr) : GoStr :=
  let ws := fun c => c = ' ' ∨ c = '\t' ∨ c = '\n' ∨ c = '\r'
  ((s.dropWhile (fun c => decide (ws c))).reverse.dropWhile
    (fun c => decide (ws c))).reverse

theorem splitChar_ne_nil (sep : Char) (s : GoStr) : splitChar sep s ≠ [] := by
  cases s with
  | nil => simp [splitChar]
  | cons c rest =>
    simp only [splitChar]
    split
    · simp
    · cases h : splitChar sep rest <;> simp

/-- Rejoining the fields of a split reproduces the original string. -/
theorem joinChar_splitChar (sep : Char) (s : GoStr) :
    joinChar sep (splitChar sep s) = s := by
  induction s with
  | nil => rfl
  | cons c rest ih =>
    simp only [splitChar]
    by_cases hc : c = sep
    · subst hc
      simp only [if_pos rfl]
      cases h : splitChar c rest with
      | nil => exact absurd h (splitChar_ne_nil c rest)
      | cons p ps =>
        rw [h] at ih
        simp [joinChar, ih]
    · rw [if_neg hc]
      cases h : splitChar sep rest with
      | nil => exact absurd h (splitChar_ne_nil sep rest)
      | cons p ps =>
        rw [h] at ih
        cases ps with
        | nil => simpa [joinChar] using ih
        | cons q qs => simpa [joinChar] using ih

/-- Joining a concatenation of two nonempty lists of fields. -/
theorem joinChar_append (sep : Char) (xs ys : List GoStr)
    (hx : xs ≠ []) (hy : ys ≠ []) :
    joinChar sep (xs ++ ys) = joinChar sep xs ++ sep :: joinChar sep ys := by
  induction xs with
  | nil => exact absurd rfl hx
  | cons p ps ih =>
    cases ps with
    | nil =>
      cases ys with
      | nil => exact absurd rfl hy
      | cons q qs => simp [joinChar]
    | cons r rs =>
      have h := ih (by simp)
      simp only [List.cons_append] at h ⊢
      calc joinChar sep (p :: r :: (rs ++ ys))
          = p ++ sep :: joinChar sep (r :: (rs ++ ys)) := by
            simp [joinChar]
        _ = p ++ sep :: (joinChar sep (r :: rs) ++ sep :: joinChar sep ys) := by
            rw [h]
        _ = (p ++ sep :: joinChar sep (r :: rs)) ++ sep :: joinChar sep ys := by
            simp
        _ = joinChar sep (p :: r :: rs) ++ sep :: joinChar sep ys := by
            simp [joinChar]

/-- Numeric value of a decimal digit string. -/
def decValue (f : GoStr) : Nat := f.foldl (fun a c => a * 10 + (c.toNat - 48)) 0

/-- One IPv4 dotted-decimal field as Go `net.ParseIP` accepts it:
1–3 decimal digits, value ≤ 255, no leading zero (Go 1.17+). -/
def validV4Field (f : GoStr) : Bool :=
  decide (f ≠ []) && decide (f.length ≤ 3) &&
  f.all (fun c => decide ('0' ≤ c ∧ c ≤ '9')) &&
  (decide (f = ['0']) || decide (f.head? ≠ some '0')) &&
  decide (decValue f ≤ 255)

/-- Model of the IPv4 branch of Go `net.ParseIP`: exactly four valid
dotted-decimal fields. -/
def validIPv4 (s : GoStr) : Bool :=
  match splitChar '.' s with
  | [a, b, c, d] => validV4Field a && validV4Field b && validV4Field c && validV4Field d
  | _ => false

/-- Split on the two-character substring `"::"`, leftmost-first,
non-overlapping (as Go `strings.Split(s, "::")`). -/
def splitColonColon : GoStr → List GoStr
  | [] => [[]]
  | ':' :: ':' :: rest => [] :: splitColonColon rest
  | c :: rest =>
    match splitColonColon rest with
    | [] => [[c]]
    | p :: ps => (c :: p) :: ps

/-- A 16-bit IPv6 group: 1–4 hexadecimal digits. -/
def validHexGroup (g : GoStr) : Bool :=
  decide (g ≠ []) && decide (g.length ≤ 4) &&
  g.all (fun c => decide (('0' ≤ c ∧ c ≤ '9') ∨ ('a' ≤ c ∧ c ≤ 'f') ∨ ('A' ≤ c ∧ c ≤ 'F')))

/-- Number of 16-bit groups represented by a colon-separated group list,
where only the final group may be an embedded dotted-quad (counting as
two groups); `none` when some group is invalid. -/
def groupCount : List GoStr → Option Nat
  | [] => some 0
  | [g] =>
    if validHexGroup g then some 1
    else if validIPv4 g then some 2
    else none
  | g :: rest => if validHexGroup g then (groupCount rest).map (· + 1) else none

/-- Group count for the left side of a `"::"`, where no embedded
dotted-quad is permitted (an IPv4 tail must terminate the address). -/
def groupCountHexOnly : List GoStr → Option Nat
  | [] => some 0
  | g :: rest => if validHexGroup g then (groupCountHexOnly rest).map (· + 1) else none

/-- Model of the IPv6 branch of Go `net.ParseIP`: at most one `"::"`,
eight 16-bit groups in total without it and strictly fewer with it
(the `"::"` must expand to at least one zero group), an optional
embedded dotted-quad tail, and no `%` zone. -/
def validIPv6 (s : GoStr) : Bool :=
  if s.contains '%' then false
  else
    match splitColonColon s with
    | [whole] =>
      match groupCount (splitChar ':' whole) with
      | some n => decide (n = 8)
      | none => false
    | [l, r] =>
      let lg := if l = [] then some 0 else groupCountHexOnly (splitChar ':' l)
      let rg := if r = [] then some 0 else groupCount (splitChar ':' r)
      match lg, rg with
      | some a, some b => decide (a + b < 8)
      | _, _ => false
    | _ => false

/-- Address family chosen by Go `net.ParseIP`: it scans for the first
`'.'` or `':'` byte; `some false` means IPv4, `some true` IPv6. -/
def parseIPFamily : GoStr → Option Bool
  | [] => none
  | '.' :: _ => some false
  | ':' :: _ => some true
  | _ :: rest => parseIPFamily rest

/-- Model of Go `net.ParseIP` validity (`ParseIP s ≠ nil`). -/
def netParseIPok (s : GoStr) : Bool :=
  match parseIPFamily s with
  | some false => validIPv4 s
  | some true => validIPv6 s
  | none => false

/-- Hexadecimal digit value, as `url.PathUnescape` reads escapes. -/
def unhex (c : Char) : Option Nat :=
  if '0' ≤ c ∧ c ≤ '9' then some (c.toNat - 48)
  else if 'a' ≤ c ∧ c ≤ 'f' then some (c.toNat - 87)
  else if 'A' ≤ c ∧ c ≤ 'F' then some (c.toNat - 55)
  else none

/-- Model of Go `url.PathUnescape`: decodes `%XX` escapes and fails on a
malformed escape. -/
def pathUnescape : GoStr → Option GoStr
  | [] => some []
  | '%' :: a :: b :: rest =>
    match unhex a, unhex b with
    | some x, some y => (pathUnescape rest).map (fun r => Char.ofNat (16 * x + y) :: r)
    | _, _ => none
  | '%' :: _ => none
  | c :: rest => (pathUnescape rest).map (c :: ·)

/-- Index of the last `':'` in a string, if any
(Go `strings.LastIndexByte(hp, ':')`). -/
def lastColonIdx (hp : GoStr) : Option Nat :=
  (hp.reverse.findIdx? (fun c => c = ':')).map (fun j => hp.length - 1 - j)

/-- Model of Go `net.SplitHostPort`, returning the host on success:
the port follows the last colon; a bracketed host `[h]:p` must close
exactly before that colon; an unbracketed host may contain no colon
and no brackets. -/
def splitHostPortHost (hp : GoStr) : Option GoStr :=
  match lastColonIdx hp with
  | none => none
  | some i =>
    if hp.head? = some '[' then
      match hp.findIdx? (fun c => c = ']') with
      | none => none
      | some e =>
        if e + 1 = hp.length then none
        else if e + 1 = i then
          if (hp.drop 1).contains '[' || (hp.drop (e + 1)).contains ']' then none
          else some ((hp.drop 1).take (e - 1))
        else none
    else
      if (hp.take i).contains ':' || hp.contains '[' || hp.contains ']' then none
      else some (hp.take i)

end GoModel

open GoModel

/-- Model of `provider.DNSRecord` from `internal/provider/provider.go`
(`Name`, `Type`, `Value`, `TTL`; the optional priority is unused by the
core paths). -/
structure DNSRecord where
  name : GoStr
  rtype : GoStr
  value : GoStr
  ttl : Nat
  deriving DecidableEq, Repr

namespace Handler

/-- The parts of an inbound HTTP GET request that
`DynDNSHandler.ServeHTTP` reads.  Absent query parameters and headers
are the empty string, as Go's `Values.Get`/`Header.Get` return. -/
structure Request where
  path : GoStr
  queryHostname : GoStr
  queryMyip : GoStr
  xForwardedFor : GoStr
  remoteAddr : GoStr
  deriving Repr

def nicUpdatePath : GoStr := "/nic/update".toList

def notfqdnStatus : GoStr := "notfqdn".toList

def errStatus : GoStr := "911".toList

def goodStatus : GoStr := "good".toList

/-- Model of `DynDNSHandler.extractHostname`: standard form reads the `hostname`
query parameter; compact (UniFi) form percent-decodes the path with the
leading slash stripped, keeping the raw path if decoding fails. -/
def extractHostname (r : Request) : GoStr :=
  if hasPrefixB r.path nicUpdatePath then r.queryHostname
  else
    let p := trimPrefixStr r.path ['/']
    if p ≠ [] then
      match pathUnescape p with
      | some d => d
      | none => p
    else []

/-- Leftmost-first replacement of the three-character pattern `a b c`
by `rep` (Go `strings.ReplaceAll` with a 3-byte pattern). -/
def replaceSub3 (a b c rep : Char) : GoStr → GoStr
  | x :: y :: z :: rest =>
    if x = a ∧ y = b ∧ z = c then rep :: replaceSub3 a b c rep rest
    else x :: replaceSub3 a b c rep (y :: z :: rest)
  | l => l

/-- Model of `DynDNSHandler.normalizeHostname`: decode `%2a`/`%2A` to `*`, then
lower-case. -/
def normalizeHostname (h : GoStr) : GoStr :=
  toLowerStr (replaceSub3 '%' '2' 'A' '*' (replaceSub3 '%' '2' 'a' '*' h))

/-- Model of `DynDNSHandler.splitHostname`: the last two dot-separated labels
form the domain; everything before them is the subdomain, `"@"` when
nothing remains; fewer than two labels yield `("", "")`. -/
def splitHostname (hostname : GoStr) : GoStr × GoStr :=
  let parts := splitChar '.' hostname
  if parts.length < 2 then ([], [])
  else
    let domain := joinChar '.' (parts.drop (parts.length - 2))
    let subdomain :=
      if parts.length > 2 then joinChar '.' (parts.take (parts.length - 2))
      else ['@']
    (domain, subdomain)

/-- Model of `DynDNSHandler.buildHostname`. -/
def buildHostname (subdomain domain : GoStr) : GoStr :=
  if subdomain = ['@'] ∨ subdomain = [] then domain
  else subdomain ++ '.' :: domain

/-- Model of `RemoteAddr` with the port stripped when `net.SplitHostPort`
succeeds, unchanged otherwise (lines 159–162 of `dyndns.go`). -/
def stripPort (s : GoStr) : GoStr :=
  match splitHostPortHost s with
  | some h => h
  | none => s

/-- Model of `DynDNSHandler.extractIP`, parameterized by the validity predicate
of `net.ParseIP` (`parse s = true` iff `net.ParseIP(s) != nil`). -/
def extractIP (parse : GoStr → Bool) (r : Request) : GoStr :=
  if r.queryMyip ≠ [] ∧ parse r.queryMyip then r.queryMyip
  else
    let ip0 := stripPort r.remoteAddr
    let ip :=
      if r.xForwardedFor ≠ [] then
        match splitChar ',' r.xForwardedFor with
        | [] => ip0
        | f :: _ => trimSpace f
      else ip0
    if parse ip then ip else []

/-- What `ServeHTTP` does up to (and including) the decision whether to
call the provider: either an immediate response with no provider call,
or a provider `UpdateRecord` call with the given arguments. -/
inductive HAction where
  | reply (status ip : GoStr)
  | callProvider (domain : GoStr) (record : DNSRecord) (ip : GoStr)
  deriving DecidableEq, Repr

/-- The pure prefix of `DynDNSHandler.ServeHTTP` for a GET request:
hostname extraction/normalization/split, IP extraction, record-type
selection and the `updateDNS` argument build. -/
def handlerDecide (parse : GoStr → Bool) (ttl : Nat) (r : Request) : HAction :=
  let hostname := extractHostname r
  if hostname = [] then .reply notfqdnStatus []
  else
    let hn := normalizeHostname hostname
    let ds := splitHostname hn
    if ds.1 = [] then .reply notfqdnStatus []
    else
      let ip := extractIP parse r
      if ip = [] then .reply errStatus []
      else
        let rtype := if ip.contains ':' then "AAAA".toList else ['A']
        let nm := buildHostname ds.2 ds.1
        .callProvider ds.1 ⟨nm, rtype, ip, ttl⟩ ip

/-- The status word `ServeHTTP` renders from the provider outcome
(lines 88–95 of `dyndns.go`). -/
def handlerStatus (res : Except GoStr Unit) : GoStr :=
  match res with
  | .ok _ => goodStatus
  | .error _ => errStatus

/-- Model of `DynDNSHandler.respond`: the response body line. -/
def respondBody (standard : Bool) (status ip : GoStr) : GoStr :=
  if standard then
    if ip ≠ [] then status ++ ' ' :: ip ++ ['\n'] else status ++ ['\n']
  else status ++ ['\n']

end Handler

namespace Netcup

/-- Model of `netcupDNSRecord` from the Netcup client. -/
structure NetcupRecord where
  id : GoStr
  hostname : GoStr
  rtype : GoStr
  priority : GoStr
  destination : GoStr
  deleteRec : Bool
  state : GoStr
  deriving DecidableEq, Repr

/-- Model of `NetcupClient.extractSubdomain` (lines 1067–1081): lower-case both
arguments; equal → `"@"`; strip a trailing `"." + domain`; otherwise
return the lowered hostname unchanged. -/
def extractSubdomain (hostname domain : GoStr) : GoStr :=
  let h := toLowerStr hostname
  let d := toLowerStr domain
  if h = d then ['@']
  else if hasSuffixB h ('.' :: d) then trimSuffix h ('.' :: d)
  else h

/-- The record-matching condition used by both `GetRecord` (line 992)
and `UpdateRecord` (line 1022): exact string equality on hostname and
type. -/
def recMatches (subdomain rtype : GoStr) (r : NetcupRecord) : Bool :=
  decide (r.hostname = subdomain) && decide (r.rtype = rtype)

/-- Model of `UpdateRecord`'s partition loop (lines 1018–1027): `existingRecord`
is overwritten by every match (so the last match wins), and each
non-matching record is appended to `otherRecords` in order. -/
def partitionRecords (records : List NetcupRecord) (subdomain rtype : GoStr) :
    Option NetcupRecord × List NetcupRecord :=
  records.foldl
    (fun acc r =>
      if recMatches subdomain rtype r then (some r, acc.2)
      else (acc.1, acc.2 ++ [r]))
    (none, [])

/-- Model of `NetcupClient.GetRecord` (lines 978–1003), given the outcome of
`InfoDNSRecords`: returns the first record matching
(subdomain, type), with the requested hostname and the fixed TTL 60. -/
def netcupGetRecord (fetched : Except GoStr (List NetcupRecord))
    (domain hostname rtype : GoStr) : Except GoStr DNSRecord :=
  let subdomain := extractSubdomain hostname domain
  match fetched with
  | .error e => .error ("get DNS records: ".toList ++ e)
  | .ok records =>
    match records.find? (recMatches subdomain rtype) with
    | some r => .ok ⟨hostname, r.rtype, r.destination, 60⟩
    | none => .error "record not found".toList

/-- Model of `NetcupClient.UpdateRecord` (lines 1006–1056), given the outcomes
of the backend fetch and of the backend write (when one is issued).
The first component lists the `updateDnsRecords` calls issued, each
with the full record list submitted. -/
def netcupUpdateRecord (fetched : Except GoStr (List NetcupRecord))
    (writeOutcome : Except GoStr Unit) (domain : GoStr) (record : DNSRecord) :
    List (List NetcupRecord) × Except GoStr Unit :=
  let subdomain := extractSubdomain record.name domain
  match fetched with
  | .error e => ([], .error ("get DNS records: ".toList ++ e))
  | .ok records =>
    let pr := partitionRecords records subdomain record.rtype
    let upd : NetcupRecord :=
      { id := match pr.1 with | some ex => ex.id | none => []
        hostname := subdomain
        rtype := record.rtype
        priority := []
        destination := record.value
        deleteRec := false
        state := [] }
    match pr.1 with
    | some ex =>
      if ex.destination = record.value then ([], .ok ())
      else
        ([pr.2 ++ [upd]],
         match writeOutcome with
         | .ok _ => .ok ()
         | .error e => .error ("update DNS record: ".toList ++ e))
    | none =>
      ([pr.2 ++ [upd]],
       match writeOutcome with
       | .ok _ => .ok ()
       | .error e => .error ("update DNS record: ".toList ++ e))

/-- The session fields of `NetcupClient` guarded by `sessionMu`
(`sessionID`, `sessionExpiry`; expiry as minutes since epoch, `0`
modelling Go's zero `time.Time`). -/
structure SessState where
  sessionID : GoStr
  sessionExpiry : Nat
  deriving DecidableEq, Repr

/-- Model of `NetcupClient.Logout` (lines 927–954), given the outcome of the
logout `doRequest`: no session → immediate success with no backend
call; otherwise one logout call, clearing `sessionID` and
`sessionExpiry` on success and leaving them untouched on failure.
Returns (new session state, number of logout calls, result). -/
def netcupLogout (s : SessState) (callOutcome : Except GoStr Unit) :
    SessState × Nat × Except GoStr Unit :=
  if s.sessionID = [] then (s, 0, .ok ())
  else
    match callOutcome with
    | .error e => (s, 1, .error ("logout request: ".toList ++ e))
    | .ok _ => (⟨[], 0⟩, 1, .ok ())

/-- Model of `NetcupClient.Close` (lines 1059–1061): delegates to `Logout`. -/
def netcupClose (s : SessState) (callOutcome : Except GoStr Unit) :
    SessState × Nat × Except GoStr Unit :=
  netcupLogout s callOutcome

/-! ### Interleaving model of `ensureSession` (lines 822–860)

Shared state: the writer side of `sessionMu` and whether a valid
(non-empty, non-expired) session is installed, collapsed to one
Boolean, plus the `loginCount` counter incremented inside `login`
(line 802).  Each caller is a thread stepping through the statements of
`ensureSession` and, when it reaches it, of `login`:

* pc 0 — fast path: `RLock`; read session validity; `RUnlock`
  (one atomic step, enabled while no writer holds the lock);
* pc 1 — fast-path branch (line 830): valid → return, else fall through;
* pc 2 — `sessionMu.Lock()` (line 836);
* pc 3 — double-check read (lines 840–841);
* pc 4 — double-check branch (line 843): valid → deferred unlock and
  return, else fall through;
* pc 5 — `sessionMu.Unlock()` before login (line 855);
* pc 6 — `login`: the network `doRequest` (no lock held);
* pc 7 — `login`: `sessionMu.Lock()` (line 799);
* pc 8 — `login`: install the session, `loginCount++`, unlock
  (lines 800–809);
* pc 9 — re-acquire the lock for the deferred unlock (line 857),
  which then runs: one atomic lock/unlock step;
* pc 10 — returned. -/
structure SessGlobal where
  lockHeld : Bool
  session : Bool
  loginCount : Nat
  deriving DecidableEq, Repr

/-- Control point and the locally cached validity read of one
`ensureSession` caller. -/
structure SessThread where
  pc : Nat
  seen : Bool
  deriving DecidableEq, Repr

/-- One atomic step of one caller; a step whose lock acquisition is
blocked leaves the state unchanged. -/
def stepSess (g : SessGlobal) (t : SessThread) : SessGlobal × SessThread :=
  match t.pc with
  | 0 => if g.lockHeld then (g, t) else (g, ⟨1, g.session⟩)
  | 1 => if t.seen then (g, ⟨10, t.seen⟩) else (g, ⟨2, t.seen⟩)
  | 2 => if g.lockHeld then (g, t) else ({ g with lockHeld := true }, ⟨3, t.seen⟩)
  | 3 => (g, ⟨4, g.session⟩)
  | 4 =>
    if t.seen then ({ g with lockHeld := false }, ⟨10, t.seen⟩)
    else (g, ⟨5, t.seen⟩)
  | 5 => ({ g with lockHeld := false }, ⟨6, t.seen⟩)
  | 6 => (g, ⟨7, t.seen⟩)
  | 7 => if g.lockHeld then (g, t) else ({ g with lockHeld := true }, ⟨8, t.seen⟩)
  | 8 => (⟨false, true, g.loginCount + 1⟩, ⟨9, t.seen⟩)
  | 9 => if g.lockHeld then (g, t) else (g, ⟨10, t.seen⟩)
  | _ => (g, t)

/-- Two concurrent callers of `ensureSession` over the shared session
state. -/
structure SessSystem where
  g : SessGlobal
  t0 : SessThread
  t1 : SessThread
  deriving DecidableEq, Repr

/-- Scheduler step: `false` advances caller 0, `true` caller 1. -/
def sessStep (s : SessSystem) (who : Bool) : SessSystem :=
  if who then
    let r := stepSess s.g s.t1
    ⟨r.1, s.t0, r.2⟩
  else
    let r := stepSess s.g s.t0
    ⟨r.1, r.2, s.t1⟩

/-- Run both callers from the initial state (lock free, no session,
zero logins) under a given schedule. -/
def runSess (sched : List Bool) : SessSystem :=
  sched.foldl sessStep ⟨⟨false, false, 0⟩, ⟨0, false⟩, ⟨0, false⟩⟩

end Netcup

namespace Aws

/-- A hosted zone as returned by `ListHostedZones` (name and id). -/
structure HostedZone where
  name : GoStr
  zid : GoStr
  deriving DecidableEq, Repr

/-- One page of the paginated zone directory; `truncated` models
`IsTruncated`, with the next page following in the list. -/
structure ZonePage where
  zones : List HostedZone
  truncated : Bool
  deriving DecidableEq, Repr

/-- Model of `AwsRoute53Client.ensureTrailingDot` (lines 211–216). -/
def ensureTrailingDot (h : GoStr) : GoStr :=
  if hasSuffixB h ['.'] then h else h ++ ['.']

def hostedZonePre : GoStr := "/hostedzone/".toList

/-- The paginated scan loop of `getHostedZoneID` (lines 180–205): each
iteration is one `ListHostedZones` call; stop at the first exact name
match (stripping the `/hostedzone/` id prefix) or at the first
non-truncated page.  Returns (number of backend calls, result). -/
def scanZonePages (target : GoStr) : List ZonePage → Nat × Except GoStr GoStr
  | [] => (0, .error "hosted zone not found".toList)
  | p :: rest =>
    match p.zones.find? (fun z => decide (z.name = target)) with
    | some z => (1, .ok (trimPrefixStr z.zid hostedZonePre))
    | none =>
      if p.truncated then
        let r := scanZonePages target rest
        (r.1 + 1, r.2)
      else (1, .error "hosted zone not found".toList)

/-- Model of `AwsRoute53Client.getHostedZoneID` (lines 170–208): consult the
zone cache first (no backend call on a hit); otherwise scan the
directory for the domain with a trailing dot ensured, storing a
successful result under the domain.  The cache is an association list
modelling the Go map `zoneCache`.  Returns
(backend calls, result, new cache). -/
def getHostedZoneID (cache : List (GoStr × GoStr)) (pages : List ZonePage)
    (domain : GoStr) : Nat × Except GoStr GoStr × List (GoStr × GoStr) :=
  match cache.find? (fun e => decide (e.1 = domain)) with
  | some e => (0, .ok e.2, cache)
  | none =>
    let r := scanZonePages (ensureTrailingDot domain) pages
    match r.2 with
    | .ok zid => (r.1, .ok zid, cache ++ [(domain, zid)])
    | .error e => (r.1, .error e, cache)

/-- The UPSERT change `UpdateRecord` submits via
`ChangeResourceRecordSets` (lines 131–154). -/
structure AwsChange where
  zoneID : GoStr
  name : GoStr
  rtype : GoStr
  ttl : Nat
  value : GoStr
  deriving DecidableEq, Repr

/-- Model of `AwsRoute53Client.UpdateRecord` (lines 113–162), given the outcomes
of the zone lookup, of the `GetRecord` pre-check, and of the
`ChangeResourceRecordSets` call.  The mutation is suppressed exactly
when the pre-check returned without error a record whose value equals
the requested one.  Returns (changes submitted, result). -/
def awsUpdateRecord (zone : Except GoStr GoStr)
    (getOutcome : Except GoStr DNSRecord) (changeOutcome : Except GoStr Unit)
    (record : DNSRecord) : List AwsChange × Except GoStr Unit :=
  match zone with
  | .error e => ([], .error ("get hosted zone: ".toList ++ e))
  | .ok zoneID =>
    let fqdn := ensureTrailingDot record.name
    let suppress :=
      match getOutcome with
      | .ok existing => decide (existing.value = record.value)
      | .error _ => false
    if suppress then ([], .ok ())
    else
      ([⟨zoneID, fqdn, record.rtype, record.ttl, record.value⟩],
       match changeOutcome with
       | .ok _ => .ok ()
       | .error e => .error ("change resource record sets: ".toList ++ e))

end Aws

namespace Netcup

/-- The record the partition loop leaves in `existingRecord`, expressed
directly: the last record of the list satisfying `p`, since the fold
overwrites the slot on every match. -/
def lastMatchRec (p : NetcupRecord → Bool) (records : List NetcupRecord) :
    Option NetcupRecord :=
  records.foldl (fun a r => if p r then some r else a) none

theorem partition_foldl_eq (p : NetcupRecord → Bool) (records : List NetcupRecord)
    (a : Option NetcupRecord) (l : List NetcupRecord) :
    records.foldl
        (fun acc r => if p r then (some r, acc.2) else (acc.1, acc.2 ++ [r])) (a, l)
      = (records.foldl (fun a r => if p r then some r else a) a,
         l ++ records.filter (fun r => !p r)) := by
  induction records generalizing a l with
  | nil => simp
  | cons r rs ih => by_cases h : p r <;> simp [h, ih]

/-- The partition loop keeps the last match as `existingRecord` and the
non-matching records, in order, as `otherRecords`. -/
theorem partitionRecords_eq (records : List NetcupRecord) (sub ty : GoStr) :
    partitionRecords records sub ty
      = (lastMatchRec (recMatches sub ty) records,
         records.filter (fun r => !recMatches sub ty r)) := by
  unfold partitionRecords lastMatchRec
  simpa using partition_foldl_eq (recMatches sub ty) records none []

theorem lastMatchRec_eq_none (p : NetcupRecord → Bool) (records : List NetcupRecord)
    (h : ∀ r ∈ records, p r = false) : lastMatchRec p records = none := by
  unfold lastMatchRec
  induction records with
  | nil => rfl
  | cons r rs ih =>
    simp only [List.foldl_cons, h r (by simp)]
    exact ih (fun x hx => h x (by simp [hx]))

end Netcup

/-! ## Claims -/

/-- C1: for every domain and update intent, when the fetched record set
contains the canonical record matching (subdomain, type) — the one
`UpdateRecord`'s partition selects — whose value already equals the
requested value, the Netcup `UpdateRecord` issues no `updateDnsRecords`
call and returns success; likewise the Route53 `UpdateRecord` whose
pre-check found a record with the requested value issues no
`ChangeResourceRecordSets` call and returns success; and the handler
renders the success status `good` from such a success outcome. -/
theorem C1_idempotent_noop
    (records : List Netcup.NetcupRecord) (w : Except GoStr Unit) (domain : GoStr)
    (record : DNSRecord) (ex : Netcup.NetcupRecord)
    (hex : (Netcup.partitionRecords records
              (Netcup.extractSubdomain record.name domain) record.rtype).1 = some ex)
    (hval : ex.destination = record.value)
    (zone : GoStr) (getEx : DNSRecord) (co : Except GoStr Unit) (record2 : DNSRecord)
    (hval2 : getEx.value = record2.value) :
    Netcup.netcupUpdateRecord (.ok records) w domain record = ([], .ok ())
    ∧ Aws.awsUpdateRecord (.ok zone) (.ok getEx) co record2 = ([], .ok ())
    ∧ Handler.handlerStatus
        (Netcup.netcupUpdateRecord (.ok records) w domain record).2
        = Handler.goodStatus := by
  have h1 : Netcup.netcupUpdateRecord (.ok records) w domain record = ([], .ok ()) := by
    unfold Netcup.netcupUpdateRecord
    dsimp only
    rw [hex]
    simp [hval]
  refine ⟨h1, ?_, ?_⟩
  · unfold Aws.awsUpdateRecord
    simp [hval2]
  · rw [h1]
    rfl

def c1rec : Netcup.NetcupRecord :=
  ⟨"12".toList, "home".toList, ['A'], [], "203.0.113.9".toList, false, []⟩

def c1dns : DNSRecord :=
  ⟨"home.example.com".toList, ['A'], "203.0.113.9".toList, 60⟩

theorem C1_idempotent_noop_witness :
    Netcup.netcupUpdateRecord (.ok [c1rec]) (.ok ()) "example.com".toList c1dns
      = ([], .ok ())
    ∧ Aws.awsUpdateRecord (.ok "Z1".toList) (.ok c1dns) (.ok ()) c1dns = ([], .ok ())
    ∧ Handler.handlerStatus
        (Netcup.netcupUpdateRecord (.ok [c1rec]) (.ok ()) "example.com".toList c1dns).2
        = Handler.goodStatus :=
  C1_idempotent_noop [c1rec] (.ok ()) "example.com".toList c1dns c1rec
    (by decide) (by decide) "Z1".toList c1dns (.ok ()) c1dns (by decide)

/-- C2: the schedule under which two concurrent `ensureSession` callers,
starting with no session, both pass the fast check, then serially pass
the double-check (the write lock is released at line 855 before `login`
runs), and both perform a login. -/
def schedDoubleLogin : List Bool :=
  [false, false, true, true, false, false, false, false,
   true, true, true, true, false, false, false, false, true, true, true, true]

/-- C2: refuted on the code — under `schedDoubleLogin` both callers
complete (pc 10) but `loginCount` ends at 2: the double-checked locking
of `ensureSession` releases `sessionMu` before calling `login`, so a
second caller that lost the race passes its own double-check while the
first login is still in flight and performs a second login, violating
the claimed "exactly one login call in total". -/
theorem C2_two_logins :
    (Netcup.runSess schedDoubleLogin).g.loginCount = 2
    ∧ (Netcup.runSess schedDoubleLogin).t0.pc = 10
    ∧ (Netcup.runSess schedDoubleLogin).t1.pc = 10
    ∧ (Netcup.runSess schedDoubleLogin).g.session = true
    ∧ (Netcup.runSess (schedDoubleLogin.take 12)).t0.pc = 6
    ∧ (Netcup.runSess (schedDoubleLogin.take 12)).t1.pc = 6 := by decide

/-- C7: `Close` delegates to `Logout`: with no session it succeeds with
zero backend calls and an unchanged state; with a session held it makes
exactly one logout backend call and, when that call succeeds, clears
both the token and the expiry. -/
theorem C7_close_logout (s : Netcup.SessState) (o : Except GoStr Unit) :
    (s.sessionID = [] → Netcup.netcupClose s o = (s, 0, .ok ()))
    ∧ (s.sessionID ≠ [] →
        (Netcup.netcupClose s o).2.1 = 1
        ∧ (o = .ok () → Netcup.netcupClose s o = (⟨[], 0⟩, 1, .ok ()))) := by
  unfold Netcup.netcupClose Netcup.netcupLogout
  refine ⟨fun h => by simp [h], fun h => ⟨?_, fun ho => by subst ho; simp [h]⟩⟩
  cases o <;> simp [h]

theorem C7_close_logout_witness :
    Netcup.netcupClose ⟨[], 7⟩ (.ok ()) = (⟨[], 7⟩, 0, .ok ())
    ∧ Netcup.netcupClose ⟨"sid".toList, 7⟩ (.ok ()) = (⟨[], 0⟩, 1, .ok ()) :=
  ⟨(C7_close_logout ⟨[], 7⟩ (.ok ())).1 rfl,
   ((C7_close_logout ⟨"sid".toList, 7⟩ (.ok ())).2 (by decide)).2 rfl⟩

/-- C10: given a successful zone lookup, the Route53 `UpdateRecord`
suppresses the mutating change exactly when the `GetRecord` pre-check
succeeded with the requested value; on any pre-check error — backend
failure just as much as not-found — the UPSERT change is still
submitted. -/
theorem C10_precheck_gate (zoneID : GoStr) (g : Except GoStr DNSRecord)
    (co : Except GoStr Unit) (record : DNSRecord) :
    ((Aws.awsUpdateRecord (.ok zoneID) g co record).1 = []
       ↔ ∃ ex, g = .ok ex ∧ ex.value = record.value)
    ∧ (∀ e, g = .error e →
        (Aws.awsUpdateRecord (.ok zoneID) g co record).1
          = [⟨zoneID, Aws.ensureTrailingDot record.name, record.rtype,
              record.ttl, record.value⟩]) := by
  unfold Aws.awsUpdateRecord
  cases g with
  | ok ex => by_cases h : ex.value = record.value <;> simp [h]
  | error e => simp

def c3req : Handler.Request :=
  ⟨"/nic/update".toList, "test.example.com".toList, [], "garbage".toList,
   "1.2.3.4:80".toList⟩

/-- C3 refuted as stated: with no `myip`, an `X-Forwarded-For` whose
first entry does not parse, and a source address that DOES parse after
port stripping, the handler answers 911 with no provider call instead
of using the parsing candidate — the source address is considered only
when no `X-Forwarded-For` header is present at all. -/
theorem C3_counterexample :
    netParseIPok (Handler.stripPort c3req.remoteAddr) = true
    ∧ c3req.queryMyip = []
    ∧ c3req.xForwardedFor ≠ []
    ∧ Handler.extractIP netParseIPok c3req = []
    ∧ Handler.handlerDecide netParseIPok 60 c3req
        = .reply Handler.errStatus [] := by decide

/-- C3 amended: a nonempty, parsing `myip` query parameter always wins;
otherwise the single remaining candidate is chosen by PRESENCE, not by
parseability — the trimmed first `X-Forwarded-For` entry when that
header is present, else the port-stripped source address — and when the
chosen candidate does not parse the handler answers the server-error
status (911) with no provider call, even if another candidate would
have parsed. -/
theorem C3_ip_precedence (parse : GoStr → Bool) (r : Handler.Request) (ttl : Nat) :
    (r.queryMyip ≠ [] ∧ parse r.queryMyip = true →
       Handler.extractIP parse r = r.queryMyip)
    ∧ (¬(r.queryMyip ≠ [] ∧ parse r.queryMyip = true) →
       Handler.extractIP parse r
         = (let cand := if r.xForwardedFor ≠ [] then
                          GoModel.trimSpace (GoModel.splitChar ',' r.xForwardedFor).headI
                        else Handler.stripPort r.remoteAddr
            if parse cand = true then cand else []))
    ∧ (Handler.extractHostname r ≠ [] →
       (Handler.splitHostname
          (Handler.normalizeHostname (Handler.extractHostname r))).1 ≠ [] →
       Handler.extractIP parse r = [] →
       Handler.handlerDecide parse ttl r = .reply Handler.errStatus []) := by
  refine ⟨?_, ?_, ?_⟩
  · intro h
    unfold Handler.extractIP
    rw [if_pos h]
  · intro h
    unfold Handler.extractIP
    rw [if_neg h]
    by_cases hx : r.xForwardedFor = []
    · simp [hx]
    · cases hsp : GoModel.splitChar ',' r.xForwardedFor with
      | nil => exact absurd hsp (GoModel.splitChar_ne_nil ',' _)
      | cons f rest => simp [hx, hsp]
  · intro h1 h2 h3
    unfold Handler.handlerDecide
    dsimp only
    rw [if_neg h1, if_neg h2, if_pos h3]

def c3wreq : Handler.Request :=
  ⟨"/nic/update".toList, "test.example.com".toList, "203.0.113.9".toList,
   "9.9.9.9".toList, "1.2.3.4:80".toList⟩

theorem C3_ip_precedence_witness :
    Handler.extractIP netParseIPok c3wreq = "203.0.113.9".toList :=
  (C3_ip_precedence netParseIPok c3wreq 60).1 (by decide)

/-- C6 refuted as stated: `".example.com"` has three dot-separated
labels, yet splitting and rejoining gives `"example.com"`, not the
(lowercased) original: the empty recovered subdomain collapses in
`buildHostname`. -/
theorem C6_counterexample :
    (GoModel.splitChar '.' ".example.com".toList).length = 3
    ∧ Handler.splitHostname ".example.com".toList = ("example.com".toList, [])
    ∧ Handler.buildHostname
        (Handler.splitHostname ".example.com".toList).2
        (Handler.splitHostname ".example.com".toList).1
        ≠ toLowerStr ".example.com".toList := by decide

/-- Behavior of `splitHostname` on at least two labels, written out. -/
theorem splitHostname_eq (s : GoStr)
    (h2 : 2 ≤ (GoModel.splitChar '.' s).length) :
    Handler.splitHostname s
      = (GoModel.joinChar '.'
           ((GoModel.splitChar '.' s).drop ((GoModel.splitChar '.' s).length - 2)),
         if (GoModel.splitChar '.' s).length > 2
         then GoModel.joinChar '.'
           ((GoModel.splitChar '.' s).take ((GoModel.splitChar '.' s).length - 2))
         else ['@']) := by
  unfold Handler.splitHostname
  dsimp only
  rw [if_neg (by omega)]

/-- C6 amended: for every hostname whose lowercase form splits into at
least two dot-separated labels, rejoining the split reproduces the
lowercased hostname, EXCEPT when more than two labels are present and
the recovered subdomain is the empty string or the literal `"@"` (then
`buildHostname` collapses it and the bare domain is produced instead);
and a hostname with fewer than two labels cannot be split, so the
handler answers the notfqdn status without calling the provider. -/
theorem C6_split_roundtrip (h : GoStr) :
    (2 ≤ (GoModel.splitChar '.' (toLowerStr h)).length →
     ((GoModel.splitChar '.' (toLowerStr h)).length = 2
       ∨ ((Handler.splitHostname (toLowerStr h)).2 ≠ []
           ∧ (Handler.splitHostname (toLowerStr h)).2 ≠ ['@'])) →
     Handler.buildHostname (Handler.splitHostname (toLowerStr h)).2
         (Handler.splitHostname (toLowerStr h)).1 = toLowerStr h)
    ∧ (∀ parse ttl r, Handler.extractHostname r = h →
        (GoModel.splitChar '.' (Handler.normalizeHostname h)).length < 2 →
        Handler.handlerDecide parse ttl r = .reply Handler.notfqdnStatus []) := by
  constructor
  · intro hge hcase
    have hjoin := GoModel.joinChar_splitChar '.' (toLowerStr h)
    rw [splitHostname_eq (toLowerStr h) hge] at hcase ⊢
    dsimp only at hcase ⊢
    by_cases h2 : (GoModel.splitChar '.' (toLowerStr h)).length > 2
    · rw [if_pos h2] at hcase ⊢
      have hsub := hcase.resolve_left (by omega)
      have htake : (GoModel.splitChar '.' (toLowerStr h)).take
          ((GoModel.splitChar '.' (toLowerStr h)).length - 2) ≠ [] := by
        apply List.length_pos.mp
        rw [List.length_take]
        omega
      have hdrop : (GoModel.splitChar '.' (toLowerStr h)).drop
          ((GoModel.splitChar '.' (toLowerStr h)).length - 2) ≠ [] := by
        apply List.length_pos.mp
        rw [List.length_drop]
        omega
      unfold Handler.buildHostname
      rw [if_neg (by tauto)]
      rw [← GoModel.joinChar_append '.' _ _ htake hdrop, List.take_append_drop]
      exact hjoin
    · rw [if_neg h2] at hcase ⊢
      unfold Handler.buildHostname
      rw [if_pos (Or.inl rfl)]
      have hz : (GoModel.splitChar '.' (toLowerStr h)).length - 2 = 0 := by omega
      rw [hz, List.drop_zero]
      exact hjoin
  · intro parse ttl r hr hlt
    unfold Handler.handlerDecide
    dsimp only
    by_cases hh : Handler.extractHostname r = []
    · rw [if_pos hh]
    · rw [if_neg hh]
      have hds : (Handler.splitHostname
          (Handler.normalizeHostname (Handler.extractHostname r))).1 = [] := by
        rw [hr]
        unfold Handler.splitHostname
        dsimp only
        rw [if_pos hlt]
      rw [if_pos hds]

theorem C6_split_roundtrip_witness :
    Handler.buildHostname
        (Handler.splitHostname (toLowerStr "Home.Example.com".toList)).2
        (Handler.splitHostname (toLowerStr "Home.Example.com".toList)).1
      = toLowerStr "Home.Example.com".toList :=
  (C6_split_roundtrip "Home.Example.com".toList).1 (by decide) (by decide)

/-- C8: the zone cache is lazy and append-only: a cached domain is
answered with zero backend calls and an unchanged cache; a lookup never
removes or changes existing entries; once a lookup has succeeded, every
later lookup of the same domain — against any state of the backend
directory — answers from the cache with zero backend calls; a cache
miss that succeeds got its identifier from a paginated scan for an
exact name match of the domain with a trailing dot ensured (at least
one backend call), and stored it under the domain. -/
theorem C8_zone_cache (cache : List (GoStr × GoStr)) (pages pages2 : List Aws.ZonePage)
    (domain : GoStr) :
    (∀ z, cache.find? (fun e => decide (e.1 = domain)) = some z →
       Aws.getHostedZoneID cache pages domain = (0, .ok z.2, cache))
    ∧ (∀ d' z', cache.find? (fun e => decide (e.1 = d')) = some z' →
        (Aws.getHostedZoneID cache pages domain).2.2.find?
            (fun e => decide (e.1 = d')) = some z')
    ∧ (∀ n zid c2, Aws.getHostedZoneID cache pages domain = (n, .ok zid, c2) →
        Aws.getHostedZoneID c2 pages2 domain = (0, .ok zid, c2))
    ∧ (∀ n zid c2, cache.find? (fun e => decide (e.1 = domain)) = none →
        Aws.getHostedZoneID cache pages domain = (n, .ok zid, c2) →
        c2 = cache ++ [(domain, zid)]
        ∧ Aws.scanZonePages (Aws.ensureTrailingDot domain) pages = (n, .ok zid))
    ∧ (∀ target n zid, Aws.scanZonePages target pages = (n, .ok zid) →
        1 ≤ n ∧ ∃ p ∈ pages, ∃ z ∈ p.zones, z.name = target
          ∧ zid = GoModel.trimPrefixStr z.zid Aws.hostedZonePre) := by
  refine ⟨?_, ?_, ?_, ?_, ?_⟩
  · intro z hz
    unfold Aws.getHostedZoneID
    rw [hz]
  · intro d' z' hz'
    unfold Aws.getHostedZoneID
    cases hfind : cache.find? (fun e => decide (e.1 = domain)) with
    | some e => exact hz'
    | none =>
      dsimp only
      rcases hp : Aws.scanZonePages (Aws.ensureTrailingDot domain) pages with ⟨sn, sr⟩
      cases sr with
      | ok z0 =>
        dsimp only
        rw [List.find?_append, hz']
        rfl
      | error e0 => exact hz'
  · intro n zid c2 heq
    unfold Aws.getHostedZoneID at heq ⊢
    cases hfind : cache.find? (fun e => decide (e.1 = domain)) with
    | some e =>
      rw [hfind] at heq
      have hok : Except.ok e.2 = Except.ok zid := congrArg (fun x => x.2.1) heq
      have hc : cache = c2 := congrArg (fun x => x.2.2) heq
      have hzid : e.2 = zid := by injection hok
      subst hc
      rw [hfind]
      dsimp only
      rw [hzid]
    | none =>
      rw [hfind] at heq
      dsimp only at heq
      rcases hp : Aws.scanZonePages (Aws.ensureTrailingDot domain) pages with ⟨sn, sr⟩
      rw [hp] at heq
      cases sr with
      | ok z0 =>
        dsimp only at heq
        have hok : Except.ok z0 = Except.ok zid := congrArg (fun x => x.2.1) heq
        have hc : cache ++ [(domain, z0)] = c2 := congrArg (fun x => x.2.2) heq
        have hz0 : z0 = zid := by injection hok
        subst hz0
        subst hc
        have hfind2 : (cache ++ [(domain, z0)]).find?
            (fun e => decide (e.1 = domain)) = some (domain, z0) := by
          rw [List.find?_append, hfind]
          simp
        rw [hfind2]
      | error e0 =>
        dsimp only at heq
        have hok : Except.error e0 = Except.ok zid := congrArg (fun x => x.2.1) heq
        cases hok
  · intro n zid c2 hnone heq
    unfold Aws.getHostedZoneID at heq
    rw [hnone] at heq
    dsimp only at heq
    rcases hp : Aws.scanZonePages (Aws.ensureTrailingDot domain) pages with ⟨sn, sr⟩
    rw [hp] at heq
    cases sr with
    | ok z0 =>
      dsimp only at heq
      have hn : sn = n := congrArg Prod.fst heq
      have hok : Except.ok z0 = Except.ok zid := congrArg (fun x => x.2.1) heq
      have hc : cache ++ [(domain, z0)] = c2 := congrArg (fun x => x.2.2) heq
      have hz0 : z0 = zid := by injection hok
      subst hz0
      subst hn
      exact ⟨hc.symm, rfl⟩
    | error e0 =>
      dsimp only at heq
      have hok : Except.error e0 = Except.ok zid := congrArg (fun x => x.2.1) heq
      cases hok
  · intro target n zid
    induction pages generalizing n with
    | nil =>
      intro hs
      unfold Aws.scanZonePages at hs
      have hok : Except.error "hosted zone not found".toList = Except.ok zid :=
        congrArg Prod.snd hs
      cases hok
    | cons p rest ih =>
      intro hs
      unfold Aws.scanZonePages at hs
      cases hf : p.zones.find? (fun z => decide (z.name = target)) with
      | some z =>
        rw [hf] at hs
        have hn : 1 = n := congrArg Prod.fst hs
        have hok : Except.ok (GoModel.trimPrefixStr z.zid Aws.hostedZonePre)
            = Except.ok zid := congrArg Prod.snd hs
        have hz : GoModel.trimPrefixStr z.zid Aws.hostedZonePre = zid := by
          injection hok
        have hname : z.name = target := by
          simpa using List.find?_some hf
        exact ⟨by omega, p, by simp, z, List.mem_of_find?_eq_some hf, hname, hz.symm⟩
      | none =>
        rw [hf] at hs
        by_cases ht : p.truncated
        · rw [if_pos ht] at hs
          dsimp only at hs
          rcases hp : Aws.scanZonePages target rest with ⟨sn, sr⟩
          rw [hp] at hs
          have hn : sn + 1 = n := congrArg Prod.fst hs
          have hsr : sr = Except.ok zid := congrArg Prod.snd hs
          subst hsr
          obtain ⟨hge, p', hp', z, hz, hname, hzid⟩ := ih sn hp
          exact ⟨by omega, p', by simp [hp'], z, hz, hname, hzid⟩
        · rw [if_neg ht] at hs
          have hok : Except.error "hosted zone not found".toList = Except.ok zid :=
            congrArg Prod.snd hs
          cases hok

theorem C8_zone_cache_witness :
    Aws.getHostedZoneID [("example.com".toList, "Z1".toList)]
        [] "example.com".toList
      = (0, .ok "Z1".toList, [("example.com".toList, "Z1".toList)])
    ∧ Aws.getHostedZoneID
        ([] ++ [("example.com".toList, "Z1".toList)]) [] "example.com".toList
      = (0, .ok "Z1".toList, [] ++ [("example.com".toList, "Z1".toList)]) :=
  ⟨(C8_zone_cache [("example.com".toList, "Z1".toList)] [] [] "example.com".toList).1
     ("example.com".toList, "Z1".toList) (by decide),
   (C8_zone_cache [] [⟨[⟨"example.com.".toList, "/hostedzone/Z1".toList⟩], false⟩]
      [] "example.com".toList).2.2.1 1 "Z1".toList
      ([] ++ [("example.com".toList, "Z1".toList)]) (by decide)⟩

def c4rA : Netcup.NetcupRecord :=
  ⟨"id1".toList, "home".toList, ['A'], [], "1.1.1.1".toList, false, []⟩

def c4rB : Netcup.NetcupRecord :=
  ⟨"id2".toList, "home".toList, ['A'], [], "2.2.2.2".toList, false, []⟩

def c4rC : Netcup.NetcupRecord :=
  ⟨"id3".toList, "www".toList, ['A'], [], "9.9.9.9".toList, false, []⟩

def c4new : Netcup.NetcupRecord :=
  ⟨"id2".toList, "home".toList, ['A'], [], "3.3.3.3".toList, false, []⟩

def c4dns : DNSRecord :=
  ⟨"home.example.com".toList, ['A'], "3.3.3.3".toList, 60⟩

/-- C4 refuted as stated: with two fetched records matching (home, A),
the list submitted to the backend keeps only the non-matching record
plus the replacement; the first match is dropped (not kept as
unrelated) and the replacement carries the LAST match's identifier, not
the first's. -/
theorem C4_counterexample :
    Netcup.netcupUpdateRecord (.ok [c4rA, c4rB, c4rC]) (.ok ())
        "example.com".toList c4dns
      = ([[c4rC, c4new]], .ok ())
    ∧ c4rA ∉ [c4rC, c4new]
    ∧ c4new.id = c4rB.id
    ∧ c4new.id ≠ c4rA.id := by decide

/-- C4 amended: when the Netcup `UpdateRecord` writes, the submitted
list is exactly the fetched records that do not match (subdomain, type),
in order, followed by one replacement; the canonical existing record is
the LAST match encountered — earlier matches are dropped from the
submitted list, not kept — and the replacement carries its backend
identifier, or no identifier when no record matched. -/
theorem C4_submitted_list (records : List Netcup.NetcupRecord)
    (w : Except GoStr Unit) (domain : GoStr) (record : DNSRecord) :
    (∀ ex, Netcup.lastMatchRec (Netcup.recMatches
              (Netcup.extractSubdomain record.name domain) record.rtype) records
            = some ex →
       ex.destination ≠ record.value →
       (Netcup.netcupUpdateRecord (.ok records) w domain record).1
         = [records.filter (fun r => !Netcup.recMatches
               (Netcup.extractSubdomain record.name domain) record.rtype r)
            ++ [⟨ex.id, Netcup.extractSubdomain record.name domain, record.rtype,
                 [], record.value, false, []⟩]])
    ∧ (Netcup.lastMatchRec (Netcup.recMatches
          (Netcup.extractSubdomain record.name domain) record.rtype) records = none →
       (Netcup.netcupUpdateRecord (.ok records) w domain record).1
         = [records.filter (fun r => !Netcup.recMatches
               (Netcup.extractSubdomain record.name domain) record.rtype r)
            ++ [⟨[], Netcup.extractSubdomain record.name domain, record.rtype,
                 [], record.value, false, []⟩]]) := by
  constructor
  · intro ex hex hne
    unfold Netcup.netcupUpdateRecord
    dsimp only
    rw [Netcup.partitionRecords_eq, hex]
    simp [hne]
  · intro hnone
    unfold Netcup.netcupUpdateRecord
    dsimp only
    rw [Netcup.partitionRecords_eq, hnone]

theorem C4_submitted_list_witness :
    (Netcup.netcupUpdateRecord (.ok [c4rA, c4rB, c4rC]) (.ok ())
        "example.com".toList c4dns).1
      = [[c4rA, c4rB, c4rC].filter (fun r => !Netcup.recMatches
            (Netcup.extractSubdomain c4dns.name "example.com".toList) c4dns.rtype r)
         ++ [⟨c4rB.id, Netcup.extractSubdomain c4dns.name "example.com".toList,
              c4dns.rtype, [], c4dns.value, false, []⟩]] :=
  (C4_submitted_list [c4rA, c4rB, c4rC] (.ok ()) "example.com".toList c4dns).1
    c4rB (by decide) (by decide)

def c5rec : Netcup.NetcupRecord :=
  ⟨[], "TEST".toList, ['A'], [], "1.2.3.4".toList, false, []⟩

/-- C5 refuted as stated: a fetched record whose hostname differs from
the recovered label only by case is NOT matched — `GetRecord` reports
"record not found" although the lowered record hostname equals the
recovered label; matching against fetched records is case-sensitive on
the backend's casing. -/
theorem C5_counterexample :
    Netcup.netcupGetRecord (.ok [c5rec]) "example.com".toList
        "test.example.com".toList ['A']
      = .error "record not found".toList
    ∧ toLowerStr c5rec.hostname
        = Netcup.extractSubdomain "test.example.com".toList "example.com".toList := by
  decide

/-- C5 amended: the REQUESTED hostname and domain are lowered before
label recovery — a trailing "." + domain suffix is stripped
(so "test.example.com" under "example.com" gives "test") and equality
with the domain gives "@" — but a fetched record is then matched by
exact, case-sensitive string equality of its hostname and type against
the recovered label and the requested type, in `GetRecord` and in
`UpdateRecord`'s partition alike. -/
theorem C5_label_and_matching :
    (∀ sub d : GoStr, Netcup.extractSubdomain (sub ++ '.' :: d) d = toLowerStr sub)
    ∧ (∀ d : GoStr, Netcup.extractSubdomain d d = ['@'])
    ∧ (∀ r : Netcup.NetcupRecord, ∀ sub ty : GoStr,
        Netcup.recMatches sub ty r = true ↔ r.hostname = sub ∧ r.rtype = ty)
    ∧ (∀ records : List Netcup.NetcupRecord, ∀ h d ty : GoStr,
        (∀ r ∈ records, ¬(r.hostname = Netcup.extractSubdomain h d ∧ r.rtype = ty)) →
        Netcup.netcupGetRecord (.ok records) d h ty = .error "record not found".toList
        ∧ (Netcup.partitionRecords records (Netcup.extractSubdomain h d) ty).1 = none) := by
  have hdot : Char.toLower '.' = '.' := by decide
  refine ⟨?_, ?_, ?_, ?_⟩
  · intro sub d
    have hmap : toLowerStr (sub ++ '.' :: d)
        = toLowerStr sub ++ '.' :: toLowerStr d := by
      simp [toLowerStr, hdot]
    have hsuf : GoModel.hasSuffixB (toLowerStr sub ++ '.' :: toLowerStr d)
        ('.' :: toLowerStr d) = true := by
      simp only [GoModel.hasSuffixB, decide_eq_true_eq]
      exact List.suffix_append _ _
    have hne : ¬(toLowerStr sub ++ '.' :: toLowerStr d = toLowerStr d) := by
      intro hEq
      have := congrArg List.length hEq
      simp at this
      omega
    unfold Netcup.extractSubdomain
    rw [hmap, if_neg hne, if_pos (by simp [hsuf])]
    unfold GoModel.trimSuffix
    rw [if_pos (by simp [hsuf])]
    have hlen : (toLowerStr sub ++ '.' :: toLowerStr d).length
        - ('.' :: toLowerStr d).length = (toLowerStr sub).length := by
      simp
    rw [hlen, List.take_left]
  · intro d
    simp [Netcup.extractSubdomain]
  · intro r sub ty
    simp [Netcup.recMatches]
  · intro records h d ty hall
    have hfind : records.find?
        (Netcup.recMatches (Netcup.extractSubdomain h d) ty) = none := by
      rw [List.find?_eq_none]
      intro r hr
      simpa [Netcup.recMatches] using hall r hr
    constructor
    · unfold Netcup.netcupGetRecord
      dsimp only
      rw [hfind]
    · rw [Netcup.partitionRecords_eq]
      exact Netcup.lastMatchRec_eq_none _ _ (fun r hr => by
        simpa [Netcup.recMatches] using hall r hr)

theorem C5_label_and_matching_witness :
    Netcup.extractSubdomain ("tESt".toList ++ '.' :: "Example.com".toList)
        "Example.com".toList = toLowerStr "tESt".toList
    ∧ Netcup.netcupGetRecord (.ok [c5rec]) "example.com".toList
        "test.example.com".toList "AAAA".toList = .error "record not found".toList :=
  ⟨C5_label_and_matching.1 "tESt".toList "Example.com".toList,
   (C5_label_and_matching.2.2.2 [c5rec] "test.example.com".toList
     "example.com".toList "AAAA".toList (by decide)).1⟩

/-- C9: when the lowered hostname is neither the lowered domain nor has
"." + the lowered domain as a suffix, `extractSubdomain` falls through
and returns the whole lowered hostname rather than failing;
`UpdateRecord` then uses it as the hostname label of the replacement
record it submits, and `GetRecord` matches fetched records against it
as the label. -/
theorem C9_label_fallthrough (hostname domain : GoStr)
    (hne : toLowerStr hostname ≠ toLowerStr domain)
    (hns : GoModel.hasSuffixB (toLowerStr hostname)
             ('.' :: toLowerStr domain) = false) :
    Netcup.extractSubdomain hostname domain = toLowerStr hostname
    ∧ (∀ records w ty v ttl l,
        (Netcup.netcupUpdateRecord (.ok records) w domain ⟨hostname, ty, v, ttl⟩).1
          = [l] →
        ∃ upd, l = records.filter
              (fun r => !Netcup.recMatches (toLowerStr hostname) ty r) ++ [upd]
          ∧ upd.hostname = toLowerStr hostname)
    ∧ (∀ records ty r,
        Netcup.netcupGetRecord (.ok records) domain hostname ty = .ok r →
        ∃ nr ∈ records, nr.hostname = toLowerStr hostname ∧ nr.rtype = ty
          ∧ r.value = nr.destination) := by
  have h1 : Netcup.extractSubdomain hostname domain = toLowerStr hostname := by
    unfold Netcup.extractSubdomain
    rw [if_neg hne, if_neg (by simp [hns])]
  refine ⟨h1, ?_, ?_⟩
  · intro records w ty v ttl l
    unfold Netcup.netcupUpdateRecord
    dsimp only
    rw [h1, Netcup.partitionRecords_eq]
    cases hlast : Netcup.lastMatchRec (Netcup.recMatches (toLowerStr hostname) ty)
        records with
    | none =>
      intro hl
      simp only [List.cons.injEq, and_true] at hl
      exact ⟨_, hl.symm, rfl⟩
    | some ex =>
      by_cases hv : ex.destination = v
      · simp [hv]
      · intro hl
        simp only [hv, if_false, List.cons.injEq, and_true] at hl
        exact ⟨_, hl.symm, rfl⟩
  · intro records ty r
    unfold Netcup.netcupGetRecord
    dsimp only
    rw [h1]
    cases hfind : records.find? (Netcup.recMatches (toLowerStr hostname) ty) with
    | none => intro hcon; cases hcon
    | some nr =>
      intro hr
      have hmem := List.mem_of_find?_eq_some hfind
      have hp := List.find?_some hfind
      simp only [Netcup.recMatches, Bool.and_eq_true, decide_eq_true_eq] at hp
      refine ⟨nr, hmem, hp.1, hp.2, ?_⟩
      cases hr
      rfl

theorem C9_label_fallthrough_witness :
    Netcup.extractSubdomain "Other.Net".toList "example.com".toList
      = toLowerStr "Other.Net".toList :=
  (C9_label_fallthrough "Other.Net".toList "example.com".toList
    (by decide) (by decide)).1

theorem C10_precheck_gate_witness :
    (Aws.awsUpdateRecord (.ok "Z9".toList) (.error "backend failure".toList)
       (.ok ()) ⟨"home.example.com".toList, ['A'], "203.0.113.9".toList, 60⟩).1
      = [⟨"Z9".toList, Aws.ensureTrailingDot "home.example.com".toList, ['A'],
          60, "203.0.113.9".toList⟩] :=
  (C10_precheck_gate "Z9".toList (.error "backend failure".toList) (.ok ())
    ⟨"home.example.com".toList, ['A'], "203.0.113.9".toList, 60⟩).2
    "backend failure".toList rfl
